import Mathlib

/-
Verification of the ECR tagger (src/ecr/tag.go) against its specification.

The Go file defines a `tagger` with three operations: `Add`, `Remove`, `Get`.
Each parses an ECR repository ARN, builds a region-scoped ECR client, and
issues a bounded sequence of remote calls, incrementing a metrics counter and
returning a wrapped error on each remote failure.

Shallow embedding: each operation is a pure Lean function returning its
result together with an explicit trace of observable events, in order:
remote API calls issued (with their full request values) and metrics counter
increments (`stats.IncCount`).  The remote registry is modelled as a record
of deterministic response functions (one per API used); the ARN helper
`NameAccountRegionFromARN`, defined elsewhere in the repository, is modelled
as an abstract parameter that either yields a (repoName, accountID, region)
triple or fails.  The `fmt.Printf` debug line in `Add` writes to stdout only
and touches neither the registry nor the metrics sink, so it is not an event.
Go `*string` fields are `Option String`; `aws.String` is `some` and
`aws.StringValue` is `Option.getD ""`.
-/

set_option autoImplicit false

namespace KcdEcr

/-- Go `aws.StringValue`: dereference a `*string`, nil becoming `""`. -/
def stringValue (s : Option String) : String := s.getD ""

/-- Go `aws.StringValueSlice`: map `aws.StringValue` over a `[]*string`. -/
def stringValueSlice (l : List (Option String)) : List String := l.map stringValue

/-- Embeds `ecr.ImageIdentifier` (fields `ImageTag`, `ImageDigest`, both `*string`). -/
structure ImageIdentifier where
  imageTag : Option String
  imageDigest : Option String
  deriving DecidableEq, Repr

/-- Embeds the fields of `ecr.Image` used by the code: `ImageManifest` and
`ImageId` (always populated by the API on returned images). -/
structure Image where
  imageManifest : Option String
  imageId : ImageIdentifier
  deriving DecidableEq, Repr

/-- Embeds the field of `ecr.ImageDetail` used by the code: `ImageTags` (`[]*string`). -/
structure ImageDetail where
  imageTags : List (Option String)
  deriving DecidableEq, Repr

/-- Embeds `ecr.BatchGetImageInput` as built by `Add` and `Remove`. -/
structure BatchGetImageInput where
  imageIds : List ImageIdentifier
  registryId : Option String
  repositoryName : Option String
  deriving DecidableEq, Repr

/-- Embeds `ecr.PutImageInput` as built by `Add`. -/
structure PutImageInput where
  imageManifest : Option String
  imageTag : Option String
  registryId : Option String
  repositoryName : Option String
  deriving DecidableEq, Repr

/-- Embeds `ecr.BatchDeleteImageInput` as built by `Remove`. -/
structure BatchDeleteImageInput where
  imageIds : List ImageIdentifier
  registryId : Option String
  repositoryName : Option String
  deriving DecidableEq, Repr

/-- Embeds `ecr.DescribeImagesInput` as built by `Get`. -/
structure DescribeImagesInput where
  imageIds : List ImageIdentifier
  registryId : Option String
  repositoryName : Option String
  deriving DecidableEq, Repr

/-- One remote API call issued by the tagger, with its request value. -/
inductive RemoteCall where
  | batchGetImage (req : BatchGetImageInput)
  | putImage (req : PutImageInput)
  | batchDeleteImage (req : BatchDeleteImageInput)
  | describeImages (req : DescribeImagesInput)
  deriving DecidableEq, Repr

/-- An observable event: a remote call being issued, or a metrics counter
increment (`stats.IncCount name`). -/
inductive Event where
  | call (c : RemoteCall)
  | incCount (name : String)
  deriving DecidableEq, Repr

/-- Errors produced by the tagger, mirroring the Go error values:
`parseFail` is the error from `NameAccountRegionFromARN`, `remote` an error
from an AWS API call, `wrap` is `errors.Wrap`, `new` is `errors.New`. -/
inductive Err where
  | parseFail (msg : String)
  | remote (msg : String)
  | wrap (msg : String) (inner : Err)
  | new (msg : String)
  deriving DecidableEq, Repr

/-- The remote registry: deterministic responses for the four API calls the
code uses, returning exactly the payload the code reads on success
(`getRes.Images` resp. `getRes.ImageDetails`). -/
structure EcrApi where
  batchGetImage : BatchGetImageInput → Except String (List Image)
  putImage : PutImageInput → Except String Unit
  batchDeleteImage : BatchDeleteImageInput → Except String Unit
  describeImages : DescribeImagesInput → Except String (List ImageDetail)

/-- The tagger's environment, standing for the Go `tagger` struct together
with its collaborators.  `parseARN` models `NameAccountRegionFromARN`
(defined outside this file's source scope): on success a
(repoName, accountID, region) triple.  `ecrNew` models
`ecr.New(t.sess, aws.NewConfig().WithRegion(region))`: the region-scoped
client. -/
structure Tagger where
  parseARN : String → Except String (String × String × String)
  ecrNew : String → EcrApi

/-- The `BatchGetImageInput` built in each iteration of `Add`'s tag loop;
note it is keyed by `version`, not by the tag being added, and therefore is
the same value in every iteration. -/
def addGetReq (repoName accountID version : String) : BatchGetImageInput :=
  { imageIds := [{ imageTag := some version, imageDigest := none }]
    registryId := some accountID
    repositoryName := some repoName }

/-- The `PutImageInput` built in `Add`'s inner images loop: the found image's
manifest, tagged with the tag being added. -/
def putReqFor (repoName accountID tag : String) (img : Image) : PutImageInput :=
  { imageManifest := img.imageManifest
    imageTag := some tag
    registryId := some accountID
    repositoryName := some repoName }

/-- The `BatchGetImageInput` built in each iteration of `Remove`'s tag loop,
keyed by the tag being removed. -/
def removeGetReq (repoName accountID tag : String) : BatchGetImageInput :=
  { imageIds := [{ imageTag := some tag, imageDigest := none }]
    registryId := some accountID
    repositoryName := some repoName }

/-- The `BatchDeleteImageInput` built in `Remove`'s inner images loop, keyed
by the (tag, digest) pair. -/
def delReqFor (repoName accountID tag : String) (img : Image) : BatchDeleteImageInput :=
  { imageIds := [{ imageTag := some tag, imageDigest := img.imageId.imageDigest }]
    registryId := some accountID
    repositoryName := some repoName }

/-- The `DescribeImagesInput` built by `Get`, keyed by `version`. -/
def describeReq (repoName accountID version : String) : DescribeImagesInput :=
  { imageIds := [{ imageTag := some version, imageDigest := none }]
    registryId := some accountID
    repositoryName := some repoName }

/-- Counter name `ecr.batchget.%s.failure`. -/
def batchgetFailCounter (repoName : String) : String :=
  "ecr.batchget." ++ repoName ++ ".failure"

/-- Counter name `ecr.putimage.%s.failure`. -/
def putimageFailCounter (repoName : String) : String :=
  "ecr.putimage." ++ repoName ++ ".failure"

/-- Counter name `ecr.batchdelete.%s.failure`. -/
def batchdeleteFailCounter (repoName : String) : String :=
  "ecr.batchdelete." ++ repoName ++ ".failure"

/-- Counter name `ecr.descimg.%s.failure`. -/
def descimgFailCounter (repoName : String) : String :=
  "ecr.descimg." ++ repoName ++ ".failure"

/-- Inner loop of `Add` (`for _, img := range getRes.Images`): one `PutImage`
per found image; on failure increment `ecr.putimage.<repo>.failure` and
return the wrapped error, abandoning the rest. -/
def addImagesLoop (api : EcrApi) (repoName accountID tag : String) :
    List Image → Except Err Unit × List Event
  | [] => (Except.ok (), [])
  | img :: rest =>
    let putReq := putReqFor repoName accountID tag img
    match api.putImage putReq with
    | Except.error e =>
        (Except.error (Err.wrap ("failed to add tag " ++ tag ++ " to image manifest " ++
            stringValue img.imageManifest) (Err.remote e)),
         [Event.call (RemoteCall.putImage putReq),
          Event.incCount (putimageFailCounter repoName)])
    | Except.ok _ =>
        let r := addImagesLoop api repoName accountID tag rest
        (r.1, Event.call (RemoteCall.putImage putReq) :: r.2)

/-- Outer loop of `Add` (`for _, tag := range tags`): one `BatchGetImage`
keyed by `version`, then the images loop; on lookup failure increment
`ecr.batchget.<repo>.failure` and return the wrapped error naming `tag`. -/
def addTagsLoop (api : EcrApi) (repoName accountID version : String) :
    List String → Except Err Unit × List Event
  | [] => (Except.ok (), [])
  | tag :: rest =>
    let getReq := addGetReq repoName accountID version
    match api.batchGetImage getReq with
    | Except.error e =>
        (Except.error (Err.wrap ("failed to get images of tag " ++ tag) (Err.remote e)),
         [Event.call (RemoteCall.batchGetImage getReq),
          Event.incCount (batchgetFailCounter repoName)])
    | Except.ok imgs =>
        match addImagesLoop api repoName accountID tag imgs with
        | (Except.error e, evs) =>
            (Except.error e, Event.call (RemoteCall.batchGetImage getReq) :: evs)
        | (Except.ok _, evs) =>
            let r := addTagsLoop api repoName accountID version rest
            (r.1, Event.call (RemoteCall.batchGetImage getReq) :: (evs ++ r.2))

/-- Embeds `(t *tagger) Add(ecrARN string, version string, tags ...string) error`. -/
def Tagger.Add (t : Tagger) (ecrARN version : String) (tags : List String) :
    Except Err Unit × List Event :=
  match t.parseARN ecrARN with
  | Except.error e =>
      (Except.error (Err.wrap "failed to read ECR repository ARN" (Err.parseFail e)), [])
  | Except.ok (repoName, accountID, region) =>
      addTagsLoop (t.ecrNew region) repoName accountID version tags

/-- Inner loop of `Remove` (`for _, img := range getRes.Images`): one
`BatchDeleteImage` keyed by (tag, digest) per found image; on failure
increment `ecr.batchdelete.<repo>.failure` and return the wrapped error. -/
def removeImagesLoop (api : EcrApi) (repoName accountID tag : String) :
    List Image → Except Err Unit × List Event
  | [] => (Except.ok (), [])
  | img :: rest =>
    let delReq := delReqFor repoName accountID tag img
    match api.batchDeleteImage delReq with
    | Except.error e =>
        (Except.error (Err.wrap ("failed to perform batch delete image by tag " ++ tag ++
            " and digest " ++ stringValue img.imageId.imageDigest) (Err.remote e)),
         [Event.call (RemoteCall.batchDeleteImage delReq),
          Event.incCount (batchdeleteFailCounter repoName)])
    | Except.ok _ =>
        let r := removeImagesLoop api repoName accountID tag rest
        (r.1, Event.call (RemoteCall.batchDeleteImage delReq) :: r.2)

/-- Outer loop of `Remove` (`for _, tag := range tags`): one `BatchGetImage`
keyed by the tag being removed, then the images loop; on lookup failure
increment `ecr.batchget.<repo>.failure` and return the wrapped error. -/
def removeTagsLoop (api : EcrApi) (repoName accountID : String) :
    List String → Except Err Unit × List Event
  | [] => (Except.ok (), [])
  | tag :: rest =>
    let getReq := removeGetReq repoName accountID tag
    match api.batchGetImage getReq with
    | Except.error e =>
        (Except.error (Err.wrap ("failed to get images of tag " ++ tag) (Err.remote e)),
         [Event.call (RemoteCall.batchGetImage getReq),
          Event.incCount (batchgetFailCounter repoName)])
    | Except.ok imgs =>
        match removeImagesLoop api repoName accountID tag imgs with
        | (Except.error e, evs) =>
            (Except.error e, Event.call (RemoteCall.batchGetImage getReq) :: evs)
        | (Except.ok _, evs) =>
            let r := removeTagsLoop api repoName accountID rest
            (r.1, Event.call (RemoteCall.batchGetImage getReq) :: (evs ++ r.2))

/-- Embeds `(t *tagger) Remove(ecrARN string, tags ...string) error`. -/
def Tagger.Remove (t : Tagger) (ecrARN : String) (tags : List String) :
    Except Err Unit × List Event :=
  match t.parseARN ecrARN with
  | Except.error e =>
      (Except.error (Err.wrap "failed to read ECR repository ARN" (Err.parseFail e)), [])
  | Except.ok (repoName, accountID, region) =>
      removeTagsLoop (t.ecrNew region) repoName accountID tags

/-- Outcome of `Get`: a tag list, an error, or the runtime panic the Go code
hits when it evaluates `getRes.ImageDetails[0]` on an empty slice. -/
inductive GetOutcome where
  | ok (tags : List String)
  | err (e : Err)
  | panicked
  deriving DecidableEq, Repr

/-- Embeds `(t *tagger) Get(ecrARN string, version string) ([]string, error)`.
When `DescribeImages` succeeds with an empty `ImageDetails`, the Go code
indexes `getRes.ImageDetails[0]` out of bounds; that is `GetOutcome.panicked`. -/
def Tagger.Get (t : Tagger) (ecrARN version : String) : GetOutcome × List Event :=
  match t.parseARN ecrARN with
  | Except.error e =>
      (GetOutcome.err (Err.wrap "failed to read ECR repository ARN" (Err.parseFail e)), [])
  | Except.ok (repoName, accountID, region) =>
      let api := t.ecrNew region
      let getReq := describeReq repoName accountID version
      match api.describeImages getReq with
      | Except.error e =>
          (GetOutcome.err (Err.wrap ("failed to get images of tag " ++ version) (Err.remote e)),
           [Event.call (RemoteCall.describeImages getReq),
            Event.incCount (descimgFailCounter repoName)])
      | Except.ok details =>
          if details.length > 1 then
            (GetOutcome.err
               (Err.new "More than one image with version tag was found ... bad state!"),
             [Event.call (RemoteCall.describeImages getReq)])
          else
            match details with
            | [] => (GetOutcome.panicked,
                     [Event.call (RemoteCall.describeImages getReq)])
            | d :: _ => (GetOutcome.ok (stringValueSlice d.imageTags),
                         [Event.call (RemoteCall.describeImages getReq)])

/-- Sequential composition of two (result, trace) pairs: run the first; if it
failed, stop with its result and trace; otherwise append the second's trace.
Used to state how the tag loops decompose over list append. -/
def seqComp (x y : Except Err Unit × List Event) : Except Err Unit × List Event :=
  match x with
  | (Except.error e, evs) => (Except.error e, evs)
  | (Except.ok _, evs) => (y.1, evs ++ y.2)

theorem addTagsLoop_append (api : EcrApi) (r a v : String) (pre post : List String) :
    addTagsLoop api r a v (pre ++ post) =
      seqComp (addTagsLoop api r a v pre) (addTagsLoop api r a v post) := by
  induction pre with
  | nil => simp [addTagsLoop, seqComp]
  | cons tag rest ih =>
    simp only [List.cons_append, addTagsLoop, List.append_eq]
    cases hbg : api.batchGetImage (addGetReq r a v) with
    | error e => simp [seqComp]
    | ok imgs =>
      dsimp only
      cases hil : addImagesLoop api r a tag imgs with
      | mk res evs =>
        cases res with
        | error e => simp [seqComp]
        | ok u =>
          rw [ih]
          cases hS : addTagsLoop api r a v rest with
          | mk res2 evs2 =>
            cases res2 with
            | error e2 => simp [seqComp, hS]
            | ok u2 => simp [seqComp, hS, List.append_assoc]

theorem removeTagsLoop_append (api : EcrApi) (r a : String) (pre post : List String) :
    removeTagsLoop api r a (pre ++ post) =
      seqComp (removeTagsLoop api r a pre) (removeTagsLoop api r a post) := by
  induction pre with
  | nil => simp [removeTagsLoop, seqComp]
  | cons tag rest ih =>
    simp only [List.cons_append, removeTagsLoop, List.append_eq]
    cases hbg : api.batchGetImage (removeGetReq r a tag) with
    | error e => simp [seqComp]
    | ok imgs =>
      dsimp only
      cases hil : removeImagesLoop api r a tag imgs with
      | mk res evs =>
        cases res with
        | error e => simp [seqComp]
        | ok u =>
          rw [ih]
          cases hS : removeTagsLoop api r a rest with
          | mk res2 evs2 =>
            cases res2 with
            | error e2 => simp [seqComp, hS]
            | ok u2 => simp [seqComp, hS, List.append_assoc]

/-- A mutation event: a `PutImage` or `BatchDeleteImage` call. -/
def isMutation : Event → Bool
  | Event.call (RemoteCall.putImage _) => true
  | Event.call (RemoteCall.batchDeleteImage _) => true
  | _ => false

/-- A metrics counter increment event. -/
def isInc : Event → Bool
  | Event.incCount _ => true
  | _ => false

/-- A `BatchDeleteImage` call event. -/
def isDeleteCall : Event → Bool
  | Event.call (RemoteCall.batchDeleteImage _) => true
  | _ => false

/-- A concrete image used to exercise the operations. -/
def img1 : Image :=
  { imageManifest := some "manifest-1"
    imageId := { imageTag := some "v1", imageDigest := some "sha256:aaa" } }

/-- A registry in which every call succeeds and one image exists. -/
def apiBase : EcrApi :=
  { batchGetImage := fun _ => Except.ok [img1]
    putImage := fun _ => Except.ok ()
    batchDeleteImage := fun _ => Except.ok ()
    describeImages := fun _ => Except.ok [{ imageTags := [some "v1"] }] }

/-- A registry in which lookups succeed but find nothing. -/
def apiEmpty : EcrApi :=
  { batchGetImage := fun _ => Except.ok []
    putImage := fun _ => Except.ok ()
    batchDeleteImage := fun _ => Except.ok ()
    describeImages := fun _ => Except.ok [] }

/-- A registry whose `DescribeImages` reports two images for the version tag. -/
def apiTwo : EcrApi :=
  { apiBase with
    describeImages := fun _ =>
      Except.ok [{ imageTags := [some "v1"] }, { imageTags := [some "v1", some "qa"] }] }

/-- A registry in which `PutImage` fails exactly on tag `b`. -/
def apiPutFailB : EcrApi :=
  { apiBase with
    putImage := fun req =>
      if req.imageTag = some "b" then Except.error "putboom" else Except.ok () }

/-- A tagger whose ARN always parses to a fixed (repo, account, region). -/
def tagOk (api : EcrApi) : Tagger :=
  { parseARN := fun _ => Except.ok ("myrepo", "123456", "us-east-1")
    ecrNew := fun _ => api }

/-- A tagger whose ARN never parses. -/
def tagParseFail : Tagger :=
  { parseARN := fun _ => Except.error "malformed"
    ecrNew := fun _ => apiBase }

/-- C6: on a malformed reference each of Add, Remove and Get returns the
parse error wrapped with "failed to read ECR repository ARN" and issues no
remote calls and no metric increments (the trace is empty): no partial work. -/
theorem parse_error_aborts (t : Tagger) (arn version : String) (tags : List String)
    (e : String) (hp : t.parseARN arn = Except.error e) :
    Tagger.Add t arn version tags =
      (Except.error (Err.wrap "failed to read ECR repository ARN" (Err.parseFail e)), []) ∧
    Tagger.Remove t arn tags =
      (Except.error (Err.wrap "failed to read ECR repository ARN" (Err.parseFail e)), []) ∧
    Tagger.Get t arn version =
      (GetOutcome.err (Err.wrap "failed to read ECR repository ARN" (Err.parseFail e)), []) := by
  refine ⟨?_, ?_, ?_⟩ <;> simp [Tagger.Add, Tagger.Remove, Tagger.Get, hp]

/-- Witness for `parse_error_aborts` at a concrete failing parse. -/
theorem parse_error_aborts_witness :
    Tagger.Add tagParseFail "badarn" "v1" ["a"] =
      (Except.error (Err.wrap "failed to read ECR repository ARN"
        (Err.parseFail "malformed")), []) ∧
    Tagger.Remove tagParseFail "badarn" ["a"] =
      (Except.error (Err.wrap "failed to read ECR repository ARN"
        (Err.parseFail "malformed")), []) ∧
    Tagger.Get tagParseFail "badarn" "v1" =
      (GetOutcome.err (Err.wrap "failed to read ECR repository ARN"
        (Err.parseFail "malformed")), []) :=
  parse_error_aborts tagParseFail "badarn" "v1" ["a"] "malformed" rfl

/-- C9: on a well-formed reference, Add and Remove with an empty tag list
return success with an empty trace: no remote call is issued. -/
theorem empty_tags_noop (t : Tagger) (arn version : String)
    (repoName accountID region : String)
    (hp : t.parseARN arn = Except.ok (repoName, accountID, region)) :
    Tagger.Add t arn version [] = (Except.ok (), []) ∧
    Tagger.Remove t arn [] = (Except.ok (), []) := by
  constructor <;> simp [Tagger.Add, Tagger.Remove, hp, addTagsLoop, removeTagsLoop]

/-- Witness for `empty_tags_noop` at a concrete well-formed parse. -/
theorem empty_tags_noop_witness :
    Tagger.Add (tagOk apiBase) "arn:ok" "v1" [] = (Except.ok (), []) ∧
    Tagger.Remove (tagOk apiBase) "arn:ok" [] = (Except.ok (), []) :=
  empty_tags_noop (tagOk apiBase) "arn:ok" "v1" "myrepo" "123456" "us-east-1" rfl

/-- C1 (documents the code bug): when the reference parses and
`DescribeImages` succeeds with zero matching images, `Get` evaluates
`getRes.ImageDetails[0]` on an empty slice: it panics
(`GetOutcome.panicked`) instead of returning a NotFound error. -/
theorem get_zero_images_panics (t : Tagger) (arn version : String)
    (repoName accountID region : String)
    (hp : t.parseARN arn = Except.ok (repoName, accountID, region))
    (hd : (t.ecrNew region).describeImages (describeReq repoName accountID version) =
          Except.ok []) :
    Tagger.Get t arn version =
      (GetOutcome.panicked,
       [Event.call (RemoteCall.describeImages (describeReq repoName accountID version))]) := by
  simp [Tagger.Get, hp, hd]

/-- Witness for `get_zero_images_panics`: a concrete registry with zero
images for the version tag. -/
theorem get_zero_images_panics_witness :
    Tagger.Get (tagOk apiEmpty) "arn:ok" "v1" =
      (GetOutcome.panicked,
       [Event.call (RemoteCall.describeImages (describeReq "myrepo" "123456" "v1"))]) :=
  get_zero_images_panics (tagOk apiEmpty) "arn:ok" "v1" "myrepo" "123456" "us-east-1" rfl rfl

/-- C3: when the lookup succeeds and two or more images match the version
tag, `Get` returns the `errors.New` invariant-violation error and its trace
is the single `DescribeImages` call: in particular it contains no mutation
(no `PutImage`, no `BatchDeleteImage`). -/
theorem get_multiple_images_invariant (t : Tagger) (arn version : String)
    (repoName accountID region : String) (details : List ImageDetail)
    (hp : t.parseARN arn = Except.ok (repoName, accountID, region))
    (hd : (t.ecrNew region).describeImages (describeReq repoName accountID version) =
          Except.ok details)
    (hlen : 1 < details.length) :
    Tagger.Get t arn version =
      (GetOutcome.err (Err.new "More than one image with version tag was found ... bad state!"),
       [Event.call (RemoteCall.describeImages (describeReq repoName accountID version))]) ∧
    ∀ ev ∈ (Tagger.Get t arn version).2, isMutation ev = false := by
  have h1 : Tagger.Get t arn version =
      (GetOutcome.err (Err.new "More than one image with version tag was found ... bad state!"),
       [Event.call (RemoteCall.describeImages (describeReq repoName accountID version))]) := by
    simp [Tagger.Get, hp, hd, hlen]
  refine ⟨h1, ?_⟩
  rw [h1]
  simp [isMutation]

/-- Witness for `get_multiple_images_invariant`: a registry reporting two
images for the version tag. -/
theorem get_multiple_images_invariant_witness :
    (Tagger.Get (tagOk apiTwo) "arn:ok" "v1" =
      (GetOutcome.err (Err.new "More than one image with version tag was found ... bad state!"),
       [Event.call (RemoteCall.describeImages (describeReq "myrepo" "123456" "v1"))])) ∧
    ∀ ev ∈ (Tagger.Get (tagOk apiTwo) "arn:ok" "v1").2, isMutation ev = false :=
  get_multiple_images_invariant (tagOk apiTwo) "arn:ok" "v1" "myrepo" "123456" "us-east-1"
    [{ imageTags := [some "v1"] }, { imageTags := [some "v1", some "qa"] }]
    rfl rfl (by decide)

/-- C2: exact partial-failure boundary for multi-tag Add and Remove.  If the
operation fails on a prefix `pre` of the tag list (first remote failure
inside `pre`), running it on `pre ++ post` returns the same error with the
same trace: nothing at all is done for the remaining tags `post`.  If the
operation succeeds on `pre`, running it on `pre ++ post` first performs
exactly `pre`'s work and then continues with `post`'s. -/
theorem add_remove_partial_failure_boundary (t : Tagger) (arn version : String)
    (pre post : List String) :
    (∀ e evs, Tagger.Add t arn version pre = (Except.error e, evs) →
       Tagger.Add t arn version (pre ++ post) = (Except.error e, evs)) ∧
    (∀ evs, Tagger.Add t arn version pre = (Except.ok (), evs) →
       Tagger.Add t arn version (pre ++ post) =
         ((Tagger.Add t arn version post).1, evs ++ (Tagger.Add t arn version post).2)) ∧
    (∀ e evs, Tagger.Remove t arn pre = (Except.error e, evs) →
       Tagger.Remove t arn (pre ++ post) = (Except.error e, evs)) ∧
    (∀ evs, Tagger.Remove t arn pre = (Except.ok (), evs) →
       Tagger.Remove t arn (pre ++ post) =
         ((Tagger.Remove t arn post).1, evs ++ (Tagger.Remove t arn post).2)) := by
  cases hp : t.parseARN arn with
  | error e0 =>
    refine ⟨fun e evs h => ?_, fun evs h => ?_, fun e evs h => ?_, fun evs h => ?_⟩
    · simpa [Tagger.Add, hp] using h
    · simp [Tagger.Add, hp] at h
    · simpa [Tagger.Remove, hp] using h
    · simp [Tagger.Remove, hp] at h
  | ok tr =>
    obtain ⟨r, a, reg⟩ := tr
    have hA := addTagsLoop_append (t.ecrNew reg) r a version pre post
    have hR := removeTagsLoop_append (t.ecrNew reg) r a pre post
    refine ⟨fun e evs h => ?_, fun evs h => ?_, fun e evs h => ?_, fun evs h => ?_⟩
    · simp only [Tagger.Add, hp] at h ⊢
      rw [hA, h]
      simp [seqComp]
    · simp only [Tagger.Add, hp] at h ⊢
      rw [hA, h]
      simp [seqComp]
    · simp only [Tagger.Remove, hp] at h ⊢
      rw [hR, h]
      simp [seqComp]
    · simp only [Tagger.Remove, hp] at h ⊢
      rw [hR, h]
      simp [seqComp]

/-- The error with which `apiPutFailB` makes a two-tag Add fail on tag `b`. -/
def c2FailErr : Err :=
  Err.wrap "failed to add tag b to image manifest manifest-1" (Err.remote "putboom")

/-- The trace of the two-tag Add failing on tag `b`: tag `a` is fully
processed (lookup and put), tag `b`'s lookup succeeds, its put fails and the
failure counter is bumped. -/
def c2FailTrace : List Event :=
  [Event.call (RemoteCall.batchGetImage (addGetReq "myrepo" "123456" "v1")),
   Event.call (RemoteCall.putImage (putReqFor "myrepo" "123456" "a" img1)),
   Event.call (RemoteCall.batchGetImage (addGetReq "myrepo" "123456" "v1")),
   Event.call (RemoteCall.putImage (putReqFor "myrepo" "123456" "b" img1)),
   Event.incCount (putimageFailCounter "myrepo")]

/-- Witness for `add_remove_partial_failure_boundary`: with `PutImage`
failing on tag `b`, Add over `["a", "b"] ++ ["c", "d"]` stops with tag `b`'s
error and trace; tags `c` and `d` are never looked up or put. -/
theorem add_remove_partial_failure_boundary_witness :
    Tagger.Add (tagOk apiPutFailB) "arn:ok" "v1" (["a", "b"] ++ ["c", "d"]) =
      (Except.error c2FailErr, c2FailTrace) :=
  (add_remove_partial_failure_boundary (tagOk apiPutFailB) "arn:ok" "v1"
    ["a", "b"] ["c", "d"]).1 c2FailErr c2FailTrace rfl

/-- Decidable equality for `Except`, so concrete runs can be checked by `decide`. -/
instance {α β : Type} [DecidableEq α] [DecidableEq β] : DecidableEq (Except α β) := fun x y =>
  match x, y with
  | Except.ok a, Except.ok b =>
      if h : a = b then Decidable.isTrue (congrArg Except.ok h)
      else Decidable.isFalse (fun hh => h (Except.ok.inj hh))
  | Except.ok _, Except.error _ => Decidable.isFalse (fun hh => Except.noConfusion hh)
  | Except.error _, Except.ok _ => Decidable.isFalse (fun hh => Except.noConfusion hh)
  | Except.error a, Except.error b =>
      if h : a = b then Decidable.isTrue (congrArg Except.error h)
      else Decidable.isFalse (fun hh => h (Except.error.inj hh))

/-- True when a trace contains no `BatchDeleteImage` call. -/
def noDeletes (evs : List Event) : Bool := evs.all (fun ev => !(isDeleteCall ev))

/-- Number of metrics counter increments in a trace. -/
def countInc (evs : List Event) : Nat := evs.countP (fun ev => isInc ev)

/-- If every `PutImage` for the found images succeeds, `Add`'s inner loop
succeeds and issues exactly one put per image, in order. -/
theorem addImagesLoop_all_ok (api : EcrApi) (r a tag : String) (imgs : List Image)
    (h : ∀ i ∈ imgs, api.putImage (putReqFor r a tag i) = Except.ok ()) :
    addImagesLoop api r a tag imgs =
      (Except.ok (),
       imgs.map (fun i => Event.call (RemoteCall.putImage (putReqFor r a tag i)))) := by
  induction imgs with
  | nil => simp [addImagesLoop]
  | cons i is ih =>
    have hi : api.putImage (putReqFor r a tag i) = Except.ok () := h i (by simp)
    have ih2 := ih (fun j hj => h j (by simp [hj]))
    simp [addImagesLoop, hi, ih2]

/-- If every `BatchDeleteImage` for the found images succeeds, `Remove`'s
inner loop succeeds and issues exactly one delete per image, in order. -/
theorem removeImagesLoop_all_ok (api : EcrApi) (r a tag : String) (imgs : List Image)
    (h : ∀ i ∈ imgs, api.batchDeleteImage (delReqFor r a tag i) = Except.ok ()) :
    removeImagesLoop api r a tag imgs =
      (Except.ok (),
       imgs.map (fun i => Event.call (RemoteCall.batchDeleteImage (delReqFor r a tag i)))) := by
  induction imgs with
  | nil => simp [removeImagesLoop]
  | cons i is ih =>
    have hi : api.batchDeleteImage (delReqFor r a tag i) = Except.ok () := h i (by simp)
    have ih2 := ih (fun j hj => h j (by simp [hj]))
    simp [removeImagesLoop, hi, ih2]

/-- `Add`'s inner loop never issues a delete. -/
theorem addImagesLoop_noDeletes (api : EcrApi) (r a tag : String) (imgs : List Image) :
    noDeletes (addImagesLoop api r a tag imgs).2 = true := by
  induction imgs with
  | nil => simp [addImagesLoop, noDeletes]
  | cons i is ih =>
    simp only [addImagesLoop]
    cases hp : api.putImage (putReqFor r a tag i) with
    | error e => simp [noDeletes, isDeleteCall]
    | ok u => simpa [noDeletes, isDeleteCall] using ih

/-- `Add`'s tag loop never issues a delete. -/
theorem addTagsLoop_noDeletes (api : EcrApi) (r a v : String) (tags : List String) :
    noDeletes (addTagsLoop api r a v tags).2 = true := by
  induction tags with
  | nil => simp [addTagsLoop, noDeletes]
  | cons tag rest ih =>
    simp only [addTagsLoop]
    cases hbg : api.batchGetImage (addGetReq r a v) with
    | error e => simp [noDeletes, isDeleteCall]
    | ok imgs =>
      dsimp only
      have hin := addImagesLoop_noDeletes api r a tag imgs
      cases hil : addImagesLoop api r a tag imgs with
      | mk res evs =>
        rw [hil] at hin
        cases res with
        | error e => simpa [noDeletes, isDeleteCall] using hin
        | ok u =>
          simp_all [noDeletes, isDeleteCall, List.all_append]

/-- C4: one iteration of `Add`'s tag loop.  The image lookup is the
version-keyed request; a lookup matching zero images makes the iteration a
silent no-op (just the lookup call, then the loop continues); a lookup
matching images issues one `PutImage` per image, in order, each put carrying
the tag being added and the found image's own manifest; and `Add` as a whole
never deletes anything (the version tag is left in place).  Tags are
processed as given: in input order, without deduplication. -/
theorem add_processes_tags_in_order (api : EcrApi) (r a v tag : String)
    (rest : List String) (imgs : List Image) (img : Image)
    (t : Tagger) (arn version : String) (tags : List String) :
    (api.batchGetImage (addGetReq r a v) = Except.ok [] →
      addTagsLoop api r a v (tag :: rest) =
        ((addTagsLoop api r a v rest).1,
         Event.call (RemoteCall.batchGetImage (addGetReq r a v)) ::
           (addTagsLoop api r a v rest).2)) ∧
    (api.batchGetImage (addGetReq r a v) = Except.ok imgs →
     (∀ i ∈ imgs, api.putImage (putReqFor r a tag i) = Except.ok ()) →
      addTagsLoop api r a v (tag :: rest) =
        ((addTagsLoop api r a v rest).1,
         Event.call (RemoteCall.batchGetImage (addGetReq r a v)) ::
           (imgs.map (fun i => Event.call (RemoteCall.putImage (putReqFor r a tag i))) ++
            (addTagsLoop api r a v rest).2))) ∧
    ((addGetReq r a v).imageIds = [{ imageTag := some v, imageDigest := none }] ∧
     (putReqFor r a tag img).imageTag = some tag ∧
     (putReqFor r a tag img).imageManifest = img.imageManifest) ∧
    noDeletes (Tagger.Add t arn version tags).2 = true := by
  refine ⟨?_, ?_, ⟨rfl, rfl, rfl⟩, ?_⟩
  · intro h
    simp [addTagsLoop, h, addImagesLoop]
  · intro h hall
    simp only [addTagsLoop, h]
    rw [addImagesLoop_all_ok api r a tag imgs hall]
  · cases hp : t.parseARN arn with
    | error e => simp [Tagger.Add, hp, noDeletes]
    | ok tr =>
      obtain ⟨r0, a0, reg⟩ := tr
      simp only [Tagger.Add, hp]
      exact addTagsLoop_noDeletes (t.ecrNew reg) r0 a0 version tags

/-- Witness for `add_processes_tags_in_order`: the zero-image no-op on
`apiEmpty`, the one-put-per-image trace on `apiBase`, and no-delete for a
concrete two-tag Add. -/
theorem add_processes_tags_in_order_witness :
    (addTagsLoop apiEmpty "myrepo" "123456" "v1" ["env", "qa"] =
      ((addTagsLoop apiEmpty "myrepo" "123456" "v1" ["qa"]).1,
       Event.call (RemoteCall.batchGetImage (addGetReq "myrepo" "123456" "v1")) ::
         (addTagsLoop apiEmpty "myrepo" "123456" "v1" ["qa"]).2)) ∧
    (addTagsLoop apiBase "myrepo" "123456" "v1" ["env"] =
      ((addTagsLoop apiBase "myrepo" "123456" "v1" []).1,
       Event.call (RemoteCall.batchGetImage (addGetReq "myrepo" "123456" "v1")) ::
         ([img1].map (fun i =>
            Event.call (RemoteCall.putImage (putReqFor "myrepo" "123456" "env" i))) ++
          (addTagsLoop apiBase "myrepo" "123456" "v1" []).2))) ∧
    noDeletes (Tagger.Add (tagOk apiBase) "arn:ok" "v1" ["env", "qa"]).2 = true :=
  ⟨(add_processes_tags_in_order apiEmpty "myrepo" "123456" "v1" "env" ["qa"] [] img1
      (tagOk apiBase) "arn:ok" "v1" ["env", "qa"]).1 rfl,
   (add_processes_tags_in_order apiBase "myrepo" "123456" "v1" "env" [] [img1] img1
      (tagOk apiBase) "arn:ok" "v1" ["env", "qa"]).2.1 rfl
     (fun i hi => by cases hi with | head => rfl | tail _ hh => cases hh),
   (add_processes_tags_in_order apiBase "myrepo" "123456" "v1" "env" [] [img1] img1
      (tagOk apiBase) "arn:ok" "v1" ["env", "qa"]).2.2.2⟩

/-- C5: one iteration of `Remove`'s tag loop.  The lookup is keyed by the
tag being removed; for each image found carrying it, one `BatchDeleteImage`
is issued, keyed by the (tag, digest) pair of that image, in order. -/
theorem remove_deletes_per_tag_digest (api : EcrApi) (r a tag : String)
    (rest : List String) (imgs : List Image) (img : Image) :
    (api.batchGetImage (removeGetReq r a tag) = Except.ok imgs →
     (∀ i ∈ imgs, api.batchDeleteImage (delReqFor r a tag i) = Except.ok ()) →
      removeTagsLoop api r a (tag :: rest) =
        ((removeTagsLoop api r a rest).1,
         Event.call (RemoteCall.batchGetImage (removeGetReq r a tag)) ::
           (imgs.map (fun i =>
              Event.call (RemoteCall.batchDeleteImage (delReqFor r a tag i))) ++
            (removeTagsLoop api r a rest).2))) ∧
    ((removeGetReq r a tag).imageIds = [{ imageTag := some tag, imageDigest := none }] ∧
     (delReqFor r a tag img).imageIds =
       [{ imageTag := some tag, imageDigest := img.imageId.imageDigest }]) := by
  refine ⟨?_, ⟨rfl, rfl⟩⟩
  intro h hall
  simp only [removeTagsLoop, h]
  rw [removeImagesLoop_all_ok api r a tag imgs hall]

/-- Witness for `remove_deletes_per_tag_digest` on a registry holding one
image carrying the tag. -/
theorem remove_deletes_per_tag_digest_witness :
    (removeTagsLoop apiBase "myrepo" "123456" ["env"] =
      ((removeTagsLoop apiBase "myrepo" "123456" []).1,
       Event.call (RemoteCall.batchGetImage (removeGetReq "myrepo" "123456" "env")) ::
         ([img1].map (fun i =>
            Event.call (RemoteCall.batchDeleteImage (delReqFor "myrepo" "123456" "env" i))) ++
          (removeTagsLoop apiBase "myrepo" "123456" []).2))) ∧
    ((removeGetReq "myrepo" "123456" "env").imageIds =
       [{ imageTag := some "env", imageDigest := none }] ∧
     (delReqFor "myrepo" "123456" "env" img1).imageIds =
       [{ imageTag := some "env", imageDigest := img1.imageId.imageDigest }]) :=
  ⟨(remove_deletes_per_tag_digest apiBase "myrepo" "123456" "env" [] [img1] img1).1 rfl
     (fun i hi => by cases hi with | head => rfl | tail _ hh => cases hh),
   (remove_deletes_per_tag_digest apiBase "myrepo" "123456" "env" [] [img1] img1).2⟩

/-- `isInc` on a remote call event. -/
@[simp]
theorem isInc_call (c : RemoteCall) : isInc (Event.call c) = false := rfl

/-- `isInc` on a counter increment event. -/
@[simp]
theorem isInc_incCount (n : String) : isInc (Event.incCount n) = true := rfl

/-- True of an Add/Remove result that stems from a failed remote call: the
remote error wrapped with context by `errors.Wrap`. -/
def isRemoteWrapped : Except Err Unit → Bool
  | Except.error (Err.wrap _ (Err.remote _)) => true
  | _ => false

/-- True of a Get outcome that stems from a failed remote call. -/
def getIsRemoteWrapped : GetOutcome → Bool
  | GetOutcome.err (Err.wrap _ (Err.remote _)) => true
  | _ => false

/-- `Add`'s inner loop increments exactly one counter when it ends in a
remote failure, and none otherwise. -/
theorem addImagesLoop_inc (api : EcrApi) (r a tag : String) (imgs : List Image) :
    ∀ res evs, addImagesLoop api r a tag imgs = (res, evs) →
      countInc evs = (if isRemoteWrapped res then 1 else 0) := by
  induction imgs with
  | nil =>
    intro res evs h
    simp only [addImagesLoop, Prod.mk.injEq] at h
    obtain ⟨rfl, rfl⟩ := h
    simp [countInc, isRemoteWrapped]
  | cons i is ih =>
    intro res evs h
    simp only [addImagesLoop] at h
    cases hp : api.putImage (putReqFor r a tag i) with
    | error e =>
      rw [hp] at h
      simp only [Prod.mk.injEq] at h
      obtain ⟨rfl, rfl⟩ := h
      simp [countInc, isInc, isRemoteWrapped]
    | ok u =>
      rw [hp] at h
      simp only [Prod.mk.injEq] at h
      obtain ⟨rfl, rfl⟩ := h
      have h1 := ih (addImagesLoop api r a tag is).1 (addImagesLoop api r a tag is).2 rfl
      simp only [countInc, List.countP_cons] at h1 ⊢
      simp [h1]

/-- `Add`'s tag loop increments exactly one counter when it ends in a remote
failure, and none otherwise. -/
theorem addTagsLoop_inc (api : EcrApi) (r a v : String) (tags : List String) :
    ∀ res evs, addTagsLoop api r a v tags = (res, evs) →
      countInc evs = (if isRemoteWrapped res then 1 else 0) := by
  induction tags with
  | nil =>
    intro res evs h
    simp only [addTagsLoop, Prod.mk.injEq] at h
    obtain ⟨rfl, rfl⟩ := h
    simp [countInc, isRemoteWrapped]
  | cons tag rest ih =>
    intro res evs h
    simp only [addTagsLoop] at h
    cases hbg : api.batchGetImage (addGetReq r a v) with
    | error e =>
      rw [hbg] at h
      simp only [Prod.mk.injEq] at h
      obtain ⟨rfl, rfl⟩ := h
      simp [countInc, isInc, isRemoteWrapped]
    | ok imgs =>
      rw [hbg] at h
      dsimp only at h
      cases hil : addImagesLoop api r a tag imgs with
      | mk ires ievs =>
        rw [hil] at h
        cases ires with
        | error e =>
          simp only [Prod.mk.injEq] at h
          obtain ⟨rfl, rfl⟩ := h
          have h0 := addImagesLoop_inc api r a tag imgs (Except.error e) ievs hil
          simpa [countInc, isInc] using h0
        | ok u =>
          simp only [Prod.mk.injEq] at h
          obtain ⟨rfl, rfl⟩ := h
          have h0 : countInc ievs = 0 := by
            simpa [isRemoteWrapped] using
              addImagesLoop_inc api r a tag imgs (Except.ok u) ievs hil
          have h1 := ih (addTagsLoop api r a v rest).1 (addTagsLoop api r a v rest).2 rfl
          simp only [countInc, List.countP_cons, List.countP_append] at h0 h1 ⊢
          simp [h0, h1]

/-- `Remove`'s inner loop increments exactly one counter when it ends in a
remote failure, and none otherwise. -/
theorem removeImagesLoop_inc (api : EcrApi) (r a tag : String) (imgs : List Image) :
    ∀ res evs, removeImagesLoop api r a tag imgs = (res, evs) →
      countInc evs = (if isRemoteWrapped res then 1 else 0) := by
  induction imgs with
  | nil =>
    intro res evs h
    simp only [removeImagesLoop, Prod.mk.injEq] at h
    obtain ⟨rfl, rfl⟩ := h
    simp [countInc, isRemoteWrapped]
  | cons i is ih =>
    intro res evs h
    simp only [removeImagesLoop] at h
    cases hp : api.batchDeleteImage (delReqFor r a tag i) with
    | error e =>
      rw [hp] at h
      simp only [Prod.mk.injEq] at h
      obtain ⟨rfl, rfl⟩ := h
      simp [countInc, isInc, isRemoteWrapped]
    | ok u =>
      rw [hp] at h
      simp only [Prod.mk.injEq] at h
      obtain ⟨rfl, rfl⟩ := h
      have h1 := ih (removeImagesLoop api r a tag is).1 (removeImagesLoop api r a tag is).2 rfl
      simp only [countInc, List.countP_cons] at h1 ⊢
      simp [h1]

/-- `Remove`'s tag loop increments exactly one counter when it ends in a
remote failure, and none otherwise. -/
theorem removeTagsLoop_inc (api : EcrApi) (r a : String) (tags : List String) :
    ∀ res evs, removeTagsLoop api r a tags = (res, evs) →
      countInc evs = (if isRemoteWrapped res then 1 else 0) := by
  induction tags with
  | nil =>
    intro res evs h
    simp only [removeTagsLoop, Prod.mk.injEq] at h
    obtain ⟨rfl, rfl⟩ := h
    simp [countInc, isRemoteWrapped]
  | cons tag rest ih =>
    intro res evs h
    simp only [removeTagsLoop] at h
    cases hbg : api.batchGetImage (removeGetReq r a tag) with
    | error e =>
      rw [hbg] at h
      simp only [Prod.mk.injEq] at h
      obtain ⟨rfl, rfl⟩ := h
      simp [countInc, isInc, isRemoteWrapped]
    | ok imgs =>
      rw [hbg] at h
      dsimp only at h
      cases hil : removeImagesLoop api r a tag imgs with
      | mk ires ievs =>
        rw [hil] at h
        cases ires with
        | error e =>
          simp only [Prod.mk.injEq] at h
          obtain ⟨rfl, rfl⟩ := h
          have h0 := removeImagesLoop_inc api r a tag imgs (Except.error e) ievs hil
          simpa [countInc, isInc] using h0
        | ok u =>
          simp only [Prod.mk.injEq] at h
          obtain ⟨rfl, rfl⟩ := h
          have h0 : countInc ievs = 0 := by
            simpa [isRemoteWrapped] using
              removeImagesLoop_inc api r a tag imgs (Except.ok u) ievs hil
          have h1 := ih (removeTagsLoop api r a rest).1 (removeTagsLoop api r a rest).2 rfl
          simp only [countInc, List.countP_cons, List.countP_append] at h0 h1 ⊢
          simp [h0, h1]

/-- `Add` as a whole increments exactly one counter when it returns a
remote-call failure, and none otherwise (in particular none on success and
none on a parse failure). -/
theorem add_inc (t : Tagger) (arn version : String) (tags : List String) :
    countInc (Tagger.Add t arn version tags).2 =
      (if isRemoteWrapped (Tagger.Add t arn version tags).1 then 1 else 0) := by
  cases hp : t.parseARN arn with
  | error e => simp [Tagger.Add, hp, countInc, isRemoteWrapped]
  | ok tr =>
    obtain ⟨r, a, reg⟩ := tr
    simp only [Tagger.Add, hp]
    exact addTagsLoop_inc (t.ecrNew reg) r a version tags _ _ rfl

/-- `Remove` as a whole increments exactly one counter when it returns a
remote-call failure, and none otherwise. -/
theorem remove_inc (t : Tagger) (arn : String) (tags : List String) :
    countInc (Tagger.Remove t arn tags).2 =
      (if isRemoteWrapped (Tagger.Remove t arn tags).1 then 1 else 0) := by
  cases hp : t.parseARN arn with
  | error e => simp [Tagger.Remove, hp, countInc, isRemoteWrapped]
  | ok tr =>
    obtain ⟨r, a, reg⟩ := tr
    simp only [Tagger.Remove, hp]
    exact removeTagsLoop_inc (t.ecrNew reg) r a tags _ _ rfl

/-- `Get` increments exactly one counter when it returns a remote-call
failure, and none otherwise (none on a parse failure, on the invariant
violation, on the empty-result panic, or on success). -/
theorem get_inc (t : Tagger) (arn version : String) :
    countInc (Tagger.Get t arn version).2 =
      (if getIsRemoteWrapped (Tagger.Get t arn version).1 then 1 else 0) := by
  cases hp : t.parseARN arn with
  | error e => simp [Tagger.Get, hp, countInc, getIsRemoteWrapped]
  | ok tr =>
    obtain ⟨r, a, reg⟩ := tr
    cases hd : (t.ecrNew reg).describeImages (describeReq r a version) with
    | error e => simp [Tagger.Get, hp, hd, countInc, isInc, getIsRemoteWrapped]
    | ok details =>
      by_cases hl : details.length > 1
      · simp [Tagger.Get, hp, hd, hl, countInc, isInc, getIsRemoteWrapped]
      · cases details with
        | nil => simp [Tagger.Get, hp, hd, hl, countInc, isInc, getIsRemoteWrapped]
        | cons d ds =>
          have hl2 : ¬ 0 < ds.length := by simpa using hl
          simp [Tagger.Get, hp, hd, hl2, countInc, getIsRemoteWrapped]

/-- `Add`'s inner loop issues no `BatchGetImage` call. -/
theorem addImagesLoop_no_batchget (api : EcrApi) (r a tag : String) (imgs : List Image) :
    ∀ req, Event.call (RemoteCall.batchGetImage req) ∉ (addImagesLoop api r a tag imgs).2 := by
  induction imgs with
  | nil => simp [addImagesLoop]
  | cons i is ih =>
    simp only [addImagesLoop]
    cases hp : api.putImage (putReqFor r a tag i) with
    | error e => intro req; simp
    | ok u =>
      intro req
      dsimp only
      simp [ih req]

/-- Every `BatchGetImage` request in `Add`'s tag loop trace is the single
version-keyed request, whichever tag was being processed. -/
theorem addTagsLoop_batchget_version (api : EcrApi) (r a v : String) (tags : List String) :
    ∀ req, Event.call (RemoteCall.batchGetImage req) ∈ (addTagsLoop api r a v tags).2 →
      req = addGetReq r a v := by
  induction tags with
  | nil => simp [addTagsLoop]
  | cons tag rest ih =>
    simp only [addTagsLoop]
    cases hbg : api.batchGetImage (addGetReq r a v) with
    | error e =>
      intro req hreq
      rcases List.mem_cons.mp hreq with h1 | h2
      · simpa using h1
      · simp at h2
    | ok imgs =>
      dsimp only
      have hno := addImagesLoop_no_batchget api r a tag imgs
      cases hil : addImagesLoop api r a tag imgs with
      | mk res evs =>
        rw [hil] at hno
        cases res with
        | error e =>
          intro req hreq
          rcases List.mem_cons.mp hreq with h1 | h2
          · simpa using h1
          · exact absurd h2 (hno req)
        | ok u =>
          intro req hreq
          rcases List.mem_cons.mp hreq with h1 | h2
          · simpa using h1
          · rcases List.mem_append.mp h2 with h3 | h4
            · exact absurd h3 (hno req)
            · exact ih req h4

/-- A registry whose `BatchGetImage` always fails. -/
def apiGetFail : EcrApi :=
  { apiBase with batchGetImage := fun _ => Except.error "getboom" }

/-- A registry whose `BatchDeleteImage` always fails. -/
def apiDelFail : EcrApi :=
  { apiBase with batchDeleteImage := fun _ => Except.error "delboom" }

/-- A registry whose `DescribeImages` always fails. -/
def apiDescFail : EcrApi :=
  { apiBase with describeImages := fun _ => Except.error "descboom" }

/-- C7: each operation increments exactly one failure counter exactly when it
returns a remote-call failure (wrapped remote error), and at each of the five
failure sites the counter is the operation- and repository-scoped one and the
returned error wraps the remote error with the tag or manifest involved. -/
theorem remote_failure_metrics_and_wrapping
    (t : Tagger) (arn version : String) (tags : List String)
    (api : EcrApi) (r a v tag : String) (rest : List String)
    (img : Image) (irest : List Image) (e : String)
    (repoName accountID region : String) :
    countInc (Tagger.Add t arn version tags).2 =
      (if isRemoteWrapped (Tagger.Add t arn version tags).1 then 1 else 0) ∧
    countInc (Tagger.Remove t arn tags).2 =
      (if isRemoteWrapped (Tagger.Remove t arn tags).1 then 1 else 0) ∧
    countInc (Tagger.Get t arn version).2 =
      (if getIsRemoteWrapped (Tagger.Get t arn version).1 then 1 else 0) ∧
    (api.batchGetImage (addGetReq r a v) = Except.error e →
      addTagsLoop api r a v (tag :: rest) =
        (Except.error (Err.wrap ("failed to get images of tag " ++ tag) (Err.remote e)),
         [Event.call (RemoteCall.batchGetImage (addGetReq r a v)),
          Event.incCount (batchgetFailCounter r)])) ∧
    (api.putImage (putReqFor r a tag img) = Except.error e →
      addImagesLoop api r a tag (img :: irest) =
        (Except.error (Err.wrap ("failed to add tag " ++ tag ++ " to image manifest " ++
           stringValue img.imageManifest) (Err.remote e)),
         [Event.call (RemoteCall.putImage (putReqFor r a tag img)),
          Event.incCount (putimageFailCounter r)])) ∧
    (api.batchGetImage (removeGetReq r a tag) = Except.error e →
      removeTagsLoop api r a (tag :: rest) =
        (Except.error (Err.wrap ("failed to get images of tag " ++ tag) (Err.remote e)),
         [Event.call (RemoteCall.batchGetImage (removeGetReq r a tag)),
          Event.incCount (batchgetFailCounter r)])) ∧
    (api.batchDeleteImage (delReqFor r a tag img) = Except.error e →
      removeImagesLoop api r a tag (img :: irest) =
        (Except.error (Err.wrap ("failed to perform batch delete image by tag " ++ tag ++
           " and digest " ++ stringValue img.imageId.imageDigest) (Err.remote e)),
         [Event.call (RemoteCall.batchDeleteImage (delReqFor r a tag img)),
          Event.incCount (batchdeleteFailCounter r)])) ∧
    (t.parseARN arn = Except.ok (repoName, accountID, region) →
     (t.ecrNew region).describeImages (describeReq repoName accountID version) =
        Except.error e →
      Tagger.Get t arn version =
        (GetOutcome.err (Err.wrap ("failed to get images of tag " ++ version) (Err.remote e)),
         [Event.call (RemoteCall.describeImages (describeReq repoName accountID version)),
          Event.incCount (descimgFailCounter repoName)])) := by
  refine ⟨add_inc t arn version tags, remove_inc t arn tags, get_inc t arn version,
    ?_, ?_, ?_, ?_, ?_⟩
  · intro h
    simp [addTagsLoop, h]
  · intro h
    simp [addImagesLoop, h]
  · intro h
    simp [removeTagsLoop, h]
  · intro h
    simp [removeImagesLoop, h]
  · intro hp hd
    simp [Tagger.Get, hp, hd]

/-- Witness for `remote_failure_metrics_and_wrapping`: concrete failures at
each of the five sites, plus the count bookkeeping for a put failure. -/
theorem remote_failure_metrics_and_wrapping_witness :
    countInc (Tagger.Add (tagOk apiPutFailB) "arn:ok" "v1" ["a", "b"]).2 =
      (if isRemoteWrapped (Tagger.Add (tagOk apiPutFailB) "arn:ok" "v1" ["a", "b"]).1
       then 1 else 0) ∧
    (addTagsLoop apiGetFail "myrepo" "123456" "v1" ["env"] =
      (Except.error (Err.wrap ("failed to get images of tag " ++ "env")
         (Err.remote "getboom")),
       [Event.call (RemoteCall.batchGetImage (addGetReq "myrepo" "123456" "v1")),
        Event.incCount (batchgetFailCounter "myrepo")])) ∧
    (addImagesLoop apiPutFailB "myrepo" "123456" "b" [img1] =
      (Except.error (Err.wrap ("failed to add tag " ++ "b" ++ " to image manifest " ++
         stringValue img1.imageManifest) (Err.remote "putboom")),
       [Event.call (RemoteCall.putImage (putReqFor "myrepo" "123456" "b" img1)),
        Event.incCount (putimageFailCounter "myrepo")])) ∧
    (removeTagsLoop apiGetFail "myrepo" "123456" ["env"] =
      (Except.error (Err.wrap ("failed to get images of tag " ++ "env")
         (Err.remote "getboom")),
       [Event.call (RemoteCall.batchGetImage (removeGetReq "myrepo" "123456" "env")),
        Event.incCount (batchgetFailCounter "myrepo")])) ∧
    (removeImagesLoop apiDelFail "myrepo" "123456" "env" [img1] =
      (Except.error (Err.wrap ("failed to perform batch delete image by tag " ++ "env" ++
         " and digest " ++ stringValue img1.imageId.imageDigest) (Err.remote "delboom")),
       [Event.call (RemoteCall.batchDeleteImage (delReqFor "myrepo" "123456" "env" img1)),
        Event.incCount (batchdeleteFailCounter "myrepo")])) ∧
    (Tagger.Get (tagOk apiDescFail) "arn:ok" "v1" =
      (GetOutcome.err (Err.wrap ("failed to get images of tag " ++ "v1")
         (Err.remote "descboom")),
       [Event.call (RemoteCall.describeImages (describeReq "myrepo" "123456" "v1")),
        Event.incCount (descimgFailCounter "myrepo")])) :=
  ⟨(remote_failure_metrics_and_wrapping (tagOk apiPutFailB) "arn:ok" "v1" ["a", "b"]
      apiPutFailB "myrepo" "123456" "v1" "b" [] img1 [] "putboom"
      "myrepo" "123456" "us-east-1").1,
   (remote_failure_metrics_and_wrapping (tagOk apiGetFail) "arn:ok" "v1" ["env"]
      apiGetFail "myrepo" "123456" "v1" "env" [] img1 [] "getboom"
      "myrepo" "123456" "us-east-1").2.2.2.1 rfl,
   (remote_failure_metrics_and_wrapping (tagOk apiPutFailB) "arn:ok" "v1" ["b"]
      apiPutFailB "myrepo" "123456" "v1" "b" [] img1 [] "putboom"
      "myrepo" "123456" "us-east-1").2.2.2.2.1 rfl,
   (remote_failure_metrics_and_wrapping (tagOk apiGetFail) "arn:ok" "v1" ["env"]
      apiGetFail "myrepo" "123456" "v1" "env" [] img1 [] "getboom"
      "myrepo" "123456" "us-east-1").2.2.2.2.2.1 rfl,
   (remote_failure_metrics_and_wrapping (tagOk apiDelFail) "arn:ok" "v1" ["env"]
      apiDelFail "myrepo" "123456" "v1" "env" [] img1 [] "delboom"
      "myrepo" "123456" "us-east-1").2.2.2.2.2.2.1 rfl,
   (remote_failure_metrics_and_wrapping (tagOk apiDescFail) "arn:ok" "v1" ["env"]
      apiDescFail "myrepo" "123456" "v1" "env" [] img1 [] "descboom"
      "myrepo" "123456" "us-east-1").2.2.2.2.2.2.2 rfl rfl⟩

/-- C8: a parse failure increments no counter in any of the three
operations, the multiple-image invariant violation in `Get` increments no
counter, and conversely any operation whose trace contains an increment
ended in a remote-call failure. -/
theorem no_metrics_without_remote_failure
    (t : Tagger) (arn version : String) (tags : List String)
    (repoName accountID region : String) (details : List ImageDetail) (e : String) :
    (t.parseARN arn = Except.error e →
      countInc (Tagger.Add t arn version tags).2 = 0 ∧
      countInc (Tagger.Remove t arn tags).2 = 0 ∧
      countInc (Tagger.Get t arn version).2 = 0) ∧
    (t.parseARN arn = Except.ok (repoName, accountID, region) →
     (t.ecrNew region).describeImages (describeReq repoName accountID version) =
        Except.ok details →
     1 < details.length →
      countInc (Tagger.Get t arn version).2 = 0) ∧
    (countInc (Tagger.Add t arn version tags).2 ≠ 0 →
      isRemoteWrapped (Tagger.Add t arn version tags).1 = true) ∧
    (countInc (Tagger.Remove t arn tags).2 ≠ 0 →
      isRemoteWrapped (Tagger.Remove t arn tags).1 = true) ∧
    (countInc (Tagger.Get t arn version).2 ≠ 0 →
      getIsRemoteWrapped (Tagger.Get t arn version).1 = true) := by
  refine ⟨?_, ?_, ?_, ?_, ?_⟩
  · intro hp
    refine ⟨?_, ?_, ?_⟩ <;>
      simp [Tagger.Add, Tagger.Remove, Tagger.Get, hp, countInc]
  · intro hp hd hl
    simp [Tagger.Get, hp, hd, hl, countInc]
  · intro hne
    rcases hb : isRemoteWrapped (Tagger.Add t arn version tags).1 with _ | _
    · exact absurd (by rw [add_inc t arn version tags, hb]; simp) hne
    · rfl
  · intro hne
    rcases hb : isRemoteWrapped (Tagger.Remove t arn tags).1 with _ | _
    · exact absurd (by rw [remove_inc t arn tags, hb]; simp) hne
    · rfl
  · intro hne
    rcases hb : getIsRemoteWrapped (Tagger.Get t arn version).1 with _ | _
    · exact absurd (by rw [get_inc t arn version, hb]; simp) hne
    · rfl

/-- Witness for `no_metrics_without_remote_failure`: the parse-failure
scenario, the two-image invariant violation, and a lookup failure whose
nonzero count forces a remote-wrapped result. -/
theorem no_metrics_without_remote_failure_witness :
    (countInc (Tagger.Add tagParseFail "badarn" "v1" ["a"]).2 = 0 ∧
     countInc (Tagger.Remove tagParseFail "badarn" ["a"]).2 = 0 ∧
     countInc (Tagger.Get tagParseFail "badarn" "v1").2 = 0) ∧
    (countInc (Tagger.Get (tagOk apiTwo) "arn:ok" "v1").2 = 0) ∧
    (isRemoteWrapped (Tagger.Add (tagOk apiGetFail) "arn:ok" "v1" ["a"]).1 = true) :=
  ⟨(no_metrics_without_remote_failure tagParseFail "badarn" "v1" ["a"]
      "myrepo" "123456" "us-east-1" [] "malformed").1 rfl,
   (no_metrics_without_remote_failure (tagOk apiTwo) "arn:ok" "v1" ["a"]
      "myrepo" "123456" "us-east-1"
      [{ imageTags := [some "v1"] }, { imageTags := [some "v1", some "qa"] }]
      "unused").2.1 rfl rfl (by decide),
   (no_metrics_without_remote_failure (tagOk apiGetFail) "arn:ok" "v1" ["a"]
      "myrepo" "123456" "us-east-1" [] "unused").2.2.2.1 (by decide)⟩

/-- C10: under a successful parse, every `BatchGetImage` request in `Add`'s
trace is the single version-keyed request (the same for every tag in the
list, and never keyed by the tag being added), while the error wrapped on a
failed lookup names the environment tag being processed, not the version
used in the query. -/
theorem add_lookup_keyed_by_version
    (t : Tagger) (arn version : String) (tags : List String)
    (repoName accountID region : String)
    (api : EcrApi) (r a v tag : String) (rest : List String) (e : String) :
    (t.parseARN arn = Except.ok (repoName, accountID, region) →
      ∀ req, Event.call (RemoteCall.batchGetImage req) ∈ (Tagger.Add t arn version tags).2 →
        req = addGetReq repoName accountID version) ∧
    ((addGetReq repoName accountID version).imageIds =
       [{ imageTag := some version, imageDigest := none }]) ∧
    (api.batchGetImage (addGetReq r a v) = Except.error e →
      addTagsLoop api r a v (tag :: rest) =
        (Except.error (Err.wrap ("failed to get images of tag " ++ tag) (Err.remote e)),
         [Event.call (RemoteCall.batchGetImage (addGetReq r a v)),
          Event.incCount (batchgetFailCounter r)])) := by
  refine ⟨?_, rfl, ?_⟩
  · intro hp req hreq
    simp only [Tagger.Add, hp] at hreq
    exact addTagsLoop_batchget_version (t.ecrNew region) repoName accountID version tags req hreq
  · intro h
    simp [addTagsLoop, h]

/-- Witness for `add_lookup_keyed_by_version`: the lookup issued while
processing tag `env` is the version-keyed request, and on a failing lookup
the wrapped error names the tag `env` even though the query was keyed by
version `v1`. -/
theorem add_lookup_keyed_by_version_witness :
    ((tagOk apiBase).parseARN "arn:ok" = Except.ok ("myrepo", "123456", "us-east-1") ∧
     Event.call (RemoteCall.batchGetImage (addGetReq "myrepo" "123456" "v1")) ∈
       (Tagger.Add (tagOk apiBase) "arn:ok" "v1" ["env"]).2) ∧
    (addGetReq "myrepo" "123456" "v1" = addGetReq "myrepo" "123456" "v1") ∧
    (addTagsLoop apiGetFail "myrepo" "123456" "v1" ["env"] =
      (Except.error (Err.wrap ("failed to get images of tag " ++ "env")
         (Err.remote "getboom")),
       [Event.call (RemoteCall.batchGetImage (addGetReq "myrepo" "123456" "v1")),
        Event.incCount (batchgetFailCounter "myrepo")])) :=
  ⟨⟨rfl, by decide⟩,
   (add_lookup_keyed_by_version (tagOk apiBase) "arn:ok" "v1" ["env"]
      "myrepo" "123456" "us-east-1" apiGetFail "myrepo" "123456" "v1" "env" [] "getboom").1
     rfl (addGetReq "myrepo" "123456" "v1") (by decide),
   (add_lookup_keyed_by_version (tagOk apiBase) "arn:ok" "v1" ["env"]
      "myrepo" "123456" "us-east-1" apiGetFail "myrepo" "123456" "v1" "env" [] "getboom").2.2
     rfl⟩

end KcdEcr
